import Mathlib

/-!
# Album-store inventory service: verification of the reservation protocol

Shallow embedding of the inventory service's Kafka consumer core
(`inventory-service/kafka_consumer.go` together with the HTTP handlers in
`inventory-service/main.go`).

The relational store is modelled as a list of `inventory` rows (the table has
`album_id` as primary key, so well-formed tables have pairwise distinct
`album_id` values, captured by `KeysNodup`).  Quantities are `Int`, matching
the `INTEGER` column and Go's `int`.  Timestamps are abstracted as `Nat`
(their values never influence control flow).  JSON decoding is abstracted as
an `Option` payload: `none` stands for a payload `json.Unmarshal` rejects.
Kafka publication is modelled by returning the list of produced messages;
offset commit is modelled by the `committed` flag (the consumer loops commit
the offset exactly when the processing function returns without error).
Transient storage failures are injected through an explicit `TxFault`
parameter marking which database call fails, mirroring the error paths of
the Go code.
-/

namespace AlbumStore

/-- A row of the `inventory` table
(`album_id VARCHAR PRIMARY KEY, quantity_available INTEGER, last_updated TIMESTAMP`). -/
structure LedgerRow where
  album_id : String
  quantity_available : Int
  last_updated : Nat
deriving DecidableEq, Repr

/-- The `inventory` table as a list of rows. -/
abbrev Table := List LedgerRow

/-- The primary-key constraint on `album_id`. -/
def KeysNodup (tab : Table) : Prop :=
  (tab.map (·.album_id)).Nodup

/-- All stored quantities are non-negative. -/
def NonNegTable (tab : Table) : Prop :=
  ∀ r ∈ tab, 0 ≤ r.quantity_available

/-- Models `SELECT ... FROM inventory WHERE album_id = $1` returning the first
matching row (`QueryRow.Scan`; `none` models `sql.ErrNoRows`). -/
def selectRow : Table → String → Option LedgerRow
  | [], _ => none
  | r :: rest, a => if r.album_id = a then some r else selectRow rest a

/-- The quantity returned by `SELECT quantity_available ... WHERE album_id = $1`. -/
def lookupQty (tab : Table) (a : String) : Option Int :=
  (selectRow tab a).map (·.quantity_available)

/-- The conditional decrement issued by `processOrderCreated`:
`UPDATE inventory SET quantity_available = quantity_available - $1
 WHERE album_id = $2 AND quantity_available >= $1`.
Returns the updated table together with the rows-affected count. -/
def updateInventoryCond : Table → String → Int → Table × Nat
  | [], _, _ => ([], 0)
  | r :: rest, a, q =>
    if r.album_id = a ∧ q ≤ r.quantity_available then
      ({ r with quantity_available := r.quantity_available - q } :: (updateInventoryCond rest a q).1,
        (updateInventoryCond rest a q).2 + 1)
    else
      (r :: (updateInventoryCond rest a q).1, (updateInventoryCond rest a q).2)

/-- The unconditional decrement issued by `reserveInventory`:
`UPDATE inventory SET quantity_available = quantity_available - $1,
 last_updated = $2 WHERE album_id = $3` — note the absence of any
`quantity_available >=` guard in the `WHERE` clause. -/
def updateInventoryUncond : Table → String → Int → Nat → Table
  | [], _, _, _ => []
  | r :: rest, a, q, now =>
    (if r.album_id = a then
      { r with quantity_available := r.quantity_available - q, last_updated := now }
    else r) :: updateInventoryUncond rest a q now

/-- The bootstrap insert issued by `processAlbumCreatedEvent`:
`INSERT INTO inventory (album_id, quantity_available, last_updated)
 VALUES ($1, $2, NOW()) ON CONFLICT (album_id) DO NOTHING`. -/
def insertIfAbsent (tab : Table) (a : String) (q : Int) (now : Nat) : Table :=
  if (selectRow tab a).isSome then tab
  else tab ++ [⟨a, q, now⟩]

/-- The `OrderMessage` struct decoded from the `order-created` topic. -/
structure OrderMessage where
  orderId : String
  albumId : String
  quantity : Int
  userId : String
  timestamp : String
deriving DecidableEq, Repr

/-- The `AlbumCreatedEvent` struct decoded from the `album-created` topic;
`initialQuantity` mirrors the optional `*int` field. -/
structure AlbumCreatedEvent where
  albumId : String
  title : String
  artist : String
  initialQuantity : Option Int
deriving DecidableEq, Repr

/-- A consumed Kafka message: opaque trace-context headers plus the decode
result of its payload (`none` when `json.Unmarshal` fails). -/
structure ConsumedMessage (α : Type) where
  headers : List (String × String)
  payload : Option α
deriving DecidableEq, Repr

/-- The events published to the outcome topics (timestamps omitted: the Go
structs stamp `time.Now()`, which no consumer logic inspects). -/
inductive OutcomeEvent where
  | succeeded (orderId : String)
  | failed (orderId : String) (reason : String)
deriving DecidableEq, Repr

def orderFailedTopic : String := "order-failed"

def orderSucceededTopic : String := "order-succeeded"

/-- A message handed to `writer.WriteMessages`: the Go code sets only `Key`
and `Value` on the produced `kafka.Message`, so `headers` records exactly
what the producer attaches. -/
structure ProducedMessage where
  topic : String
  key : String
  value : OutcomeEvent
  headers : List (String × String)
deriving DecidableEq, Repr

/-- Models `sendOrderEvent`: builds the outcome event for the given topic and writes
it with `Key: []byte(orderID), Value: event` and no headers; an unknown topic
is an error (`none`). -/
def sendOrderEvent (orderID : String) (reason : String) (topic : String) :
    Option ProducedMessage :=
  if topic = orderFailedTopic then
    some ⟨topic, orderID, OutcomeEvent.failed orderID reason, []⟩
  else if topic = orderSucceededTopic then
    some ⟨topic, orderID, OutcomeEvent.succeeded orderID, []⟩
  else
    none

/-- Models `sendOrderFailedEvent`: publish to the `order-failed` topic. -/
def sendOrderFailedEvent (orderID : String) (reason : String) : Option ProducedMessage :=
  sendOrderEvent orderID reason orderFailedTopic

/-- Models `sendOrderSucceededEvent`: publish to the `order-succeeded` topic. -/
def sendOrderSucceededEvent (orderID : String) : Option ProducedMessage :=
  sendOrderEvent orderID "" orderSucceededTopic

/-- Which database call of `processOrderCreated`'s transaction fails, for
modelling transient storage failures (`db.BeginTx`, `tx.ExecContext`,
`result.RowsAffected`, `tx.Commit`). -/
inductive TxFault where
  | beginFail
  | updateFail
  | rowsFail
  | commitFail
deriving DecidableEq, Repr

/-- Result of handling one consumed `order-created` message: the table after
the transaction, the outcome messages published, and whether the handler
returned `nil` (in which case the consumer loop commits the offset). -/
structure OrderProcResult where
  table : Table
  published : List ProducedMessage
  committed : Bool
deriving DecidableEq, Repr

/-- Models `processOrderCreated`, faithful to the Go control flow:
parse failure returns `nil` (offset committed, nothing changed); a failing
`BeginTx`/`Exec`/`RowsAffected`/`Commit` returns an error with the
transaction rolled back (table unchanged, nothing published); one affected
row commits and publishes a success event; otherwise the transaction is
rolled back (the `defer tx.Rollback()`) and a failure event with reason
`INSUFFICIENT_INVENTORY` is published.  The diagnostic `SELECT` on the
zero-rows path only feeds logging and spans, so it does not appear here. -/
def processOrderCreated (fault : Option TxFault) (tab : Table)
    (msg : ConsumedMessage OrderMessage) : OrderProcResult :=
  match msg.payload with
  | none => ⟨tab, [], true⟩
  | some event =>
    if fault = some TxFault.beginFail then ⟨tab, [], false⟩
    else if fault = some TxFault.updateFail then ⟨tab, [], false⟩
    else if fault = some TxFault.rowsFail then ⟨tab, [], false⟩
    else if (updateInventoryCond tab event.albumId event.quantity).2 = 1 then
      if fault = some TxFault.commitFail then ⟨tab, [], false⟩
      else ⟨(updateInventoryCond tab event.albumId event.quantity).1,
            (sendOrderSucceededEvent event.orderId).toList, true⟩
    else
      ⟨tab, (sendOrderFailedEvent event.orderId "INSUFFICIENT_INVENTORY").toList, true⟩

/-- Result of handling one consumed `album-created` message. -/
structure AlbumProcResult where
  table : Table
  committed : Bool
deriving DecidableEq, Repr

/-- The initial-quantity rule of `processAlbumCreatedEvent`:
`quantityToInsert := 0` unless `event.InitialQuantity != nil &&
*event.InitialQuantity >= 0`, in which case the declared quantity is used. -/
def quantityToInsert (event : AlbumCreatedEvent) : Int :=
  match event.initialQuantity with
  | some q => if 0 ≤ q then q else 0
  | none => 0

/-- Models `processAlbumCreatedEvent`, faithful to the Go control flow: a parse
failure returns an error (the consumer loop then does NOT commit the
offset); otherwise the initial quantity is the event's `initialQuantity`
when present and non-negative, else `0`, and the insert-if-absent runs.
`insertFault` models a failing `db.ExecContext`. -/
def processAlbumCreatedEvent (insertFault : Bool) (tab : Table)
    (msg : ConsumedMessage AlbumCreatedEvent) (now : Nat) : AlbumProcResult :=
  match msg.payload with
  | none => ⟨tab, false⟩
  | some event =>
    if insertFault then ⟨tab, false⟩
    else ⟨insertIfAbsent tab event.albumId (quantityToInsert event) now, true⟩

/-- Errors returned by `reserveInventory`. -/
inductive ReserveError where
  | errNoInventory
  | errInsufficientInventory
deriving DecidableEq, Repr

/-- Models `reserveInventory` with sequential semantics, faithful to the Go code: read
the current quantity (`ErrNoRows` ⇒ `errNoInventory`), reject when
`currentQuantity < quantity`, then run the *unconditional* decrement
`UPDATE ... SET quantity_available = quantity_available - $1, last_updated = $2
 WHERE album_id = $3` as a separate statement. -/
def reserveInventory (tab : Table) (albumID : String) (quantity : Int) (now : Nat) :
    Except ReserveError Table :=
  match lookupQty tab albumID with
  | none => Except.error ReserveError.errNoInventory
  | some currentQuantity =>
    if currentQuantity < quantity then Except.error ReserveError.errInsufficientInventory
    else Except.ok (updateInventoryUncond tab albumID quantity now)

/-- The body of the `inventory` JSON object returned by the HTTP layer. -/
structure InventoryBody where
  albumId : String
  quantityAvailable : Int
  lastUpdated : Nat
deriving DecidableEq, Repr

/-- An HTTP response of the inventory read endpoint. -/
structure HttpResponse where
  status : Nat
  body : InventoryBody
deriving DecidableEq, Repr

/-- Models `getInventory` (handler of `GET /api/inventory/:albumId`): a missing row
is answered with HTTP 200 and a synthesized zero-quantity body stamped
`time.Now()`; a present row is echoed back.  The handler issues no write,
which the returned table makes explicit. -/
def getInventory (tab : Table) (albumID : String) (now : Nat) : Table × HttpResponse :=
  match selectRow tab albumID with
  | none => (tab, ⟨200, ⟨albumID, 0, now⟩⟩)
  | some r => (tab, ⟨200, ⟨r.album_id, r.quantity_available, r.last_updated⟩⟩)

/-- Sequential delivery of a list of already-decoded order messages to the
fault-free coordinator, recording each message next to what it published.
Concurrent deliveries against the single-statement conditional update
linearize into some such sequence, so quantifying over all lists covers all
interleavings. -/
def deliverOrders (tab : Table) : List OrderMessage → Table × List (OrderMessage × List ProducedMessage)
  | [] => (tab, [])
  | ev :: evs =>
    ((deliverOrders (processOrderCreated none tab ⟨[], some ev⟩).table evs).1,
      (ev, (processOrderCreated none tab ⟨[], some ev⟩).published) ::
        (deliverOrders (processOrderCreated none tab ⟨[], some ev⟩).table evs).2)

/-- Sequential processing of raw consumed messages, collecting everything
published. -/
def processOrderSeq (tab : Table) : List (ConsumedMessage OrderMessage) → Table × List ProducedMessage
  | [] => (tab, [])
  | m :: ms =>
    ((processOrderSeq (processOrderCreated none tab m).table ms).1,
      (processOrderCreated none tab m).published ++
        (processOrderSeq (processOrderCreated none tab m).table ms).2)

/-- Whether a published batch contains a success outcome. -/
def isSuccessPub (pubs : List ProducedMessage) : Bool :=
  pubs.any fun p =>
    match p.value with
    | OutcomeEvent.succeeded _ => true
    | OutcomeEvent.failed _ _ => false

/-- Total quantity requested by the orders of a delivery record that were
answered with a success outcome. -/
def succQtySum : List (OrderMessage × List ProducedMessage) → Int
  | [] => 0
  | (ev, pubs) :: rest => (if isSuccessPub pubs then ev.quantity else 0) + succQtySum rest

/-! ## Concrete fixtures for the closed evaluations -/

/-- A ledger holding two units of one album. -/
def seedTable : Table := [⟨"album-1", 2, 0⟩]

/-- An order-created message as delivered (and possibly redelivered) by the broker. -/
def redeliveredOrderMsg : ConsumedMessage OrderMessage :=
  ⟨[], some ⟨"order-7", "album-1", 1, "user-1", "t0"⟩⟩

/-- An order-created message carrying a W3C trace-context header. -/
def tracedOrderMsg : ConsumedMessage OrderMessage :=
  ⟨[("traceparent", "00-4bf92f3577b34da6a3ce929d0e0e4736-00f067aa0ba902b7-01")],
    some ⟨"order-9", "album-1", 1, "user-2", "t1"⟩⟩

/-- A ledger with a single unit, the race scenario for `reserveInventory`. -/
def raceStartTable : Table := [⟨"album-1", 1, 0⟩]

/-- A ledger with three units of one album. -/
def conservationTable : Table := [⟨"album-1", 3, 0⟩]

/-- Two decoded orders of two units each against the same album. -/
def conservationOrders : List OrderMessage :=
  [⟨"order-1", "album-1", 2, "user-1", "t0"⟩, ⟨"order-2", "album-1", 2, "user-2", "t0"⟩]

/-- An album-created message declaring a negative initial quantity. -/
def albumMsgNeg : ConsumedMessage AlbumCreatedEvent :=
  ⟨[], some ⟨"album-9", "Title", "Artist", some (-3)⟩⟩

/-! ## Helper lemmas about the storage primitives -/

theorem selectRow_eq_none_iff (tab : Table) (a : String) :
    selectRow tab a = none ↔ a ∉ tab.map (·.album_id) := by
  induction tab with
  | nil => simp [selectRow]
  | cons r rest ih =>
    by_cases h : r.album_id = a
    · simp [selectRow, h]
    · simp only [selectRow, if_neg h, List.map_cons, List.mem_cons, ih]
      constructor
      · rintro hn (rfl | hm)
        · exact h rfl
        · exact hn hm
      · intro hn hm
        exact hn (Or.inr hm)

theorem selectRow_mem (tab : Table) (a : String) (r : LedgerRow)
    (h : selectRow tab a = some r) : r ∈ tab ∧ r.album_id = a := by
  induction tab with
  | nil => simp [selectRow] at h
  | cons s rest ih =>
    by_cases hs : s.album_id = a
    · simp only [selectRow, if_pos hs] at h
      cases h
      exact ⟨List.mem_cons_self _ _, hs⟩
    · simp only [selectRow, if_neg hs] at h
      obtain ⟨hmem, hkey⟩ := ih h
      exact ⟨List.mem_cons_of_mem _ hmem, hkey⟩

theorem updateInventoryCond_of_not_mem (tab : Table) (a : String) (q : Int)
    (h : a ∉ tab.map (·.album_id)) : updateInventoryCond tab a q = (tab, 0) := by
  induction tab with
  | nil => rfl
  | cons r rest ih =>
    simp only [List.map_cons, List.mem_cons] at h
    push_neg at h
    have hkey : ¬ r.album_id = a := fun hc => h.1 hc.symm
    simp only [updateInventoryCond, if_neg (fun hc : r.album_id = a ∧ _ => hkey hc.1),
      ih h.2]

theorem updateInventoryCond_keys (tab : Table) (a : String) (q : Int) :
    ((updateInventoryCond tab a q).1).map (·.album_id) = tab.map (·.album_id) := by
  induction tab with
  | nil => rfl
  | cons r rest ih =>
    by_cases h : r.album_id = a ∧ q ≤ r.quantity_available
    · simp [updateInventoryCond, if_pos h, ih]
    · simp [updateInventoryCond, if_neg h, ih]

theorem updateInventoryCond_nonneg (tab : Table) (a : String) (q : Int)
    (h : NonNegTable tab) : NonNegTable (updateInventoryCond tab a q).1 := by
  induction tab with
  | nil => exact h
  | cons r rest ih =>
    have hr : 0 ≤ r.quantity_available := h r (List.mem_cons_self _ _)
    have hrest : NonNegTable rest := fun s hs => h s (List.mem_cons_of_mem _ hs)
    by_cases hc : r.album_id = a ∧ q ≤ r.quantity_available
    · simp only [updateInventoryCond, if_pos hc]
      intro s hs
      rcases List.mem_cons.mp hs with rfl | hs'
      · simpa using sub_nonneg.mpr hc.2
      · exact ih hrest s hs'
    · simp only [updateInventoryCond, if_neg hc]
      intro s hs
      rcases List.mem_cons.mp hs with rfl | hs'
      · exact hr
      · exact ih hrest s hs'

theorem updateInventoryCond_of_selectRow_none (tab : Table) (a : String) (q : Int)
    (h : selectRow tab a = none) : updateInventoryCond tab a q = (tab, 0) :=
  updateInventoryCond_of_not_mem tab a q ((selectRow_eq_none_iff tab a).mp h)

theorem updateInventoryCond_of_lt (tab : Table) (a : String) (q : Int) (r0 : LedgerRow)
    (hnd : KeysNodup tab) (hr : selectRow tab a = some r0)
    (hlt : r0.quantity_available < q) : updateInventoryCond tab a q = (tab, 0) := by
  induction tab with
  | nil => simp [selectRow] at hr
  | cons s rest ih =>
    have hnd' : KeysNodup rest := (List.nodup_cons.mp hnd).2
    by_cases hs : s.album_id = a
    · rw [selectRow, if_pos hs] at hr
      injection hr with hr
      subst hr
      have hnm : a ∉ rest.map (·.album_id) := by
        have h1 := (List.nodup_cons.mp hnd).1
        simpa [hs] using h1
      have hcond : ¬ (s.album_id = a ∧ q ≤ s.quantity_available) :=
        fun hc => absurd hc.2 (not_le.mpr hlt)
      simp [updateInventoryCond, if_neg hcond, updateInventoryCond_of_not_mem rest a q hnm]
    · rw [selectRow, if_neg hs] at hr
      have hcond : ¬ (s.album_id = a ∧ q ≤ s.quantity_available) := fun hc => hs hc.1
      simp [updateInventoryCond, if_neg hcond, ih hnd' hr]

theorem updateInventoryCond_of_le (tab : Table) (a : String) (q : Int) (r0 : LedgerRow)
    (hnd : KeysNodup tab) (hr : selectRow tab a = some r0)
    (hle : q ≤ r0.quantity_available) :
    (updateInventoryCond tab a q).2 = 1 ∧
    selectRow (updateInventoryCond tab a q).1 a =
      some { r0 with quantity_available := r0.quantity_available - q } ∧
    ∀ b, b ≠ a → selectRow (updateInventoryCond tab a q).1 b = selectRow tab b := by
  induction tab with
  | nil => simp [selectRow] at hr
  | cons s rest ih =>
    have hnd' : KeysNodup rest := (List.nodup_cons.mp hnd).2
    by_cases hs : s.album_id = a
    · rw [selectRow, if_pos hs] at hr
      injection hr with hr
      subst hr
      have hnm : a ∉ rest.map (·.album_id) := by
        have h1 := (List.nodup_cons.mp hnd).1
        simpa [hs] using h1
      have hcond : s.album_id = a ∧ q ≤ s.quantity_available := ⟨hs, hle⟩
      have hup := updateInventoryCond_of_not_mem rest a q hnm
      refine ⟨?_, ?_, ?_⟩
      · simp [updateInventoryCond, if_pos hcond, hup]
      · simp [updateInventoryCond, if_pos hcond, hup, selectRow, hs, hle]
      · intro b hb
        have hsb : ¬ s.album_id = b := by
          rw [hs]; exact fun hc => hb hc.symm
        simp [updateInventoryCond, if_pos hcond, hup, selectRow, if_neg hsb, hle, hs,
          Ne.symm hb]
    · rw [selectRow, if_neg hs] at hr
      have hcond : ¬ (s.album_id = a ∧ q ≤ s.quantity_available) := fun hc => hs hc.1
      obtain ⟨h1, h2, h3⟩ := ih hnd' hr
      refine ⟨?_, ?_, ?_⟩
      · simp [updateInventoryCond, if_neg hcond, h1]
      · simp [updateInventoryCond, if_neg hcond, selectRow, if_neg hs, h2]
      · intro b hb
        by_cases hsb : s.album_id = b
        · simp [updateInventoryCond, if_neg hcond, selectRow, if_pos hsb]
        · simp [updateInventoryCond, if_neg hcond, selectRow, if_neg hsb, h3 b hb]

theorem selectRow_insertIfAbsent_isSome (tab : Table) (a : String) (q : Int) (now : Nat) :
    (selectRow (insertIfAbsent tab a q now) a).isSome := by
  unfold insertIfAbsent
  by_cases h : (selectRow tab a).isSome
  · simpa [if_pos h] using h
  · simp only [if_neg h]
    induction tab with
    | nil => simp [selectRow]
    | cons s rest ih =>
      by_cases hs : s.album_id = a
      · simp [selectRow] at h
        simp [selectRow, if_pos hs] at h
      · simp only [Option.isSome, selectRow] at h ⊢
        simp only [if_neg hs] at h ⊢
        exact ih h

/-! ## Helper lemmas about the coordinator -/

theorem sendOrderFailedEvent_eq (oid reason : String) :
    sendOrderFailedEvent oid reason =
      some ⟨orderFailedTopic, oid, OutcomeEvent.failed oid reason, []⟩ := by
  simp [sendOrderFailedEvent, sendOrderEvent]

theorem sendOrderSucceededEvent_eq (oid : String) :
    sendOrderSucceededEvent oid =
      some ⟨orderSucceededTopic, oid, OutcomeEvent.succeeded oid, []⟩ := by
  have h : ¬ (orderSucceededTopic = orderFailedTopic) := by decide
  simp [sendOrderSucceededEvent, sendOrderEvent, h]

theorem processOrderCreated_parse_fail (fault : Option TxFault) (tab : Table)
    (msg : ConsumedMessage OrderMessage) (h : msg.payload = none) :
    processOrderCreated fault tab msg = ⟨tab, [], true⟩ := by
  unfold processOrderCreated
  rw [h]

theorem processOrderCreated_success (tab : Table) (msg : ConsumedMessage OrderMessage)
    (ev : OrderMessage) (hp : msg.payload = some ev)
    (h1 : (updateInventoryCond tab ev.albumId ev.quantity).2 = 1) :
    processOrderCreated none tab msg =
      ⟨(updateInventoryCond tab ev.albumId ev.quantity).1,
        [⟨orderSucceededTopic, ev.orderId, OutcomeEvent.succeeded ev.orderId, []⟩], true⟩ := by
  unfold processOrderCreated
  rw [hp]
  simp [h1, sendOrderSucceededEvent_eq]

theorem processOrderCreated_failure (tab : Table) (msg : ConsumedMessage OrderMessage)
    (ev : OrderMessage) (hp : msg.payload = some ev)
    (h1 : ¬ ((updateInventoryCond tab ev.albumId ev.quantity).2 = 1)) :
    processOrderCreated none tab msg =
      ⟨tab, [⟨orderFailedTopic, ev.orderId,
        OutcomeEvent.failed ev.orderId "INSUFFICIENT_INVENTORY", []⟩], true⟩ := by
  unfold processOrderCreated
  rw [hp]
  simp [h1, sendOrderFailedEvent_eq]

theorem processOrderCreated_none_committed (tab : Table) (msg : ConsumedMessage OrderMessage) :
    (processOrderCreated none tab msg).committed = true := by
  cases hpay : msg.payload with
  | none =>
    unfold processOrderCreated
    rw [hpay]
  | some ev =>
    by_cases h1 : (updateInventoryCond tab ev.albumId ev.quantity).2 = 1
    · rw [processOrderCreated_success tab msg ev hpay h1]
    · rw [processOrderCreated_failure tab msg ev hpay h1]

theorem processOrderCreated_table_cases (fault : Option TxFault) (tab : Table)
    (msg : ConsumedMessage OrderMessage) :
    (processOrderCreated fault tab msg).table = tab ∨
    ∃ ev, msg.payload = some ev ∧
      (processOrderCreated fault tab msg).table =
        (updateInventoryCond tab ev.albumId ev.quantity).1 := by
  cases hpay : msg.payload with
  | none =>
    left
    unfold processOrderCreated
    rw [hpay]
  | some ev =>
    by_cases h1 : (updateInventoryCond tab ev.albumId ev.quantity).2 = 1
    · rcases fault with _ | f
      · right
        exact ⟨ev, rfl, by rw [processOrderCreated_success tab msg ev hpay h1]⟩
      · left
        unfold processOrderCreated
        rw [hpay]
        cases f <;> simp [h1]
    · left
      rcases fault with _ | f
      · rw [processOrderCreated_failure tab msg ev hpay h1]
      · unfold processOrderCreated
        rw [hpay]
        cases f <;> simp [h1]

theorem processOrderCreated_nonneg (fault : Option TxFault) (tab : Table)
    (msg : ConsumedMessage OrderMessage) (h : NonNegTable tab) :
    NonNegTable (processOrderCreated fault tab msg).table := by
  rcases processOrderCreated_table_cases fault tab msg with hc | ⟨ev, _, hc⟩
  · rw [hc]; exact h
  · rw [hc]; exact updateInventoryCond_nonneg tab ev.albumId ev.quantity h

theorem processOrderCreated_keys (fault : Option TxFault) (tab : Table)
    (msg : ConsumedMessage OrderMessage) :
    ((processOrderCreated fault tab msg).table).map (·.album_id) = tab.map (·.album_id) := by
  rcases processOrderCreated_table_cases fault tab msg with hc | ⟨ev, _, hc⟩
  · rw [hc]
  · rw [hc]; exact updateInventoryCond_keys tab ev.albumId ev.quantity

theorem processOrderSeq_nonneg (msgs : List (ConsumedMessage OrderMessage)) (tab : Table)
    (h : NonNegTable tab) : NonNegTable (processOrderSeq tab msgs).1 := by
  induction msgs generalizing tab with
  | nil => exact h
  | cons m ms ih =>
    simp only [processOrderSeq]
    exact ih _ (processOrderCreated_nonneg none tab m h)

theorem processOrderCreated_published_length (tab : Table)
    (msg : ConsumedMessage OrderMessage) (ev : OrderMessage) (hp : msg.payload = some ev) :
    (processOrderCreated none tab msg).published.length = 1 := by
  by_cases h1 : (updateInventoryCond tab ev.albumId ev.quantity).2 = 1
  · rw [processOrderCreated_success tab msg ev hp h1]
    rfl
  · rw [processOrderCreated_failure tab msg ev hp h1]
    rfl

theorem processOrderCreated_published_headers (fault : Option TxFault) (tab : Table)
    (msg : ConsumedMessage OrderMessage) :
    ∀ p ∈ (processOrderCreated fault tab msg).published, p.headers = [] := by
  intro p hp
  cases hpay : msg.payload with
  | none =>
    rw [processOrderCreated_parse_fail fault tab msg hpay] at hp
    simp at hp
  | some ev =>
    by_cases h1 : (updateInventoryCond tab ev.albumId ev.quantity).2 = 1
    · rcases fault with _ | f
      · rw [processOrderCreated_success tab msg ev hpay h1] at hp
        simp only [List.mem_singleton] at hp
        subst hp
        rfl
      · unfold processOrderCreated at hp
        rw [hpay] at hp
        cases f <;> simp [h1] at hp
    · rcases fault with _ | f
      · rw [processOrderCreated_failure tab msg ev hpay h1] at hp
        simp only [List.mem_singleton] at hp
        subst hp
        rfl
      · unfold processOrderCreated at hp
        rw [hpay] at hp
        cases f <;> simp [h1, sendOrderFailedEvent_eq] at hp
        all_goals subst hp
        all_goals rfl

theorem insertIfAbsent_of_present (t : Table) (a : String) (q : Int) (now : Nat)
    (h : (selectRow t a).isSome = true) : insertIfAbsent t a q now = t := by
  unfold insertIfAbsent
  rw [if_pos h]

theorem isSuccessPub_singleton_succ (t k oid : String) (hs : List (String × String)) :
    isSuccessPub [⟨t, k, OutcomeEvent.succeeded oid, hs⟩] = true := rfl

theorem isSuccessPub_singleton_fail (t k oid reason : String) (hs : List (String × String)) :
    isSuccessPub [⟨t, k, OutcomeEvent.failed oid reason, hs⟩] = false := rfl

/-- Invariant of sequential delivery against a single item: the targeted row
stays present and non-negative, the successfully reserved quantity equals the
drop in stock, and every non-success delivery published exactly the
`INSUFFICIENT_INVENTORY` failure event. -/
theorem deliverOrders_invariant (evs : List OrderMessage) (tab : Table) (a : String)
    (r0 : LedgerRow) (hnd : KeysNodup tab) (hr : selectRow tab a = some r0)
    (h0 : 0 ≤ r0.quantity_available) (hall : ∀ ev ∈ evs, ev.albumId = a) :
    ∃ r1, selectRow (deliverOrders tab evs).1 a = some r1 ∧
      0 ≤ r1.quantity_available ∧
      succQtySum (deliverOrders tab evs).2 =
        r0.quantity_available - r1.quantity_available ∧
      ∀ p ∈ (deliverOrders tab evs).2, isSuccessPub p.2 = true ∨
        p.2 = [⟨orderFailedTopic, p.1.orderId,
          OutcomeEvent.failed p.1.orderId "INSUFFICIENT_INVENTORY", []⟩] := by
  induction evs generalizing tab r0 with
  | nil =>
    refine ⟨r0, hr, h0, by simp [deliverOrders, succQtySum], by simp [deliverOrders]⟩
  | cons ev evs ih =>
    have ha : ev.albumId = a := hall ev (List.mem_cons_self _ _)
    subst ha
    have hall' : ∀ e ∈ evs, e.albumId = ev.albumId :=
      fun e he => hall e (List.mem_cons_of_mem _ he)
    by_cases hq : ev.quantity ≤ r0.quantity_available
    · have hupd := updateInventoryCond_of_le tab ev.albumId ev.quantity r0 hnd hr hq
      have hproc := processOrderCreated_success tab ⟨[], some ev⟩ ev rfl hupd.1
      have hnd2 : KeysNodup (updateInventoryCond tab ev.albumId ev.quantity).1 := by
        unfold KeysNodup
        rw [updateInventoryCond_keys]
        exact hnd
      obtain ⟨r1, hsel, hpos, hsum, hfail⟩ :=
        ih (updateInventoryCond tab ev.albumId ev.quantity).1
          { r0 with quantity_available := r0.quantity_available - ev.quantity }
          hnd2 hupd.2.1 (sub_nonneg.mpr hq) hall'
      refine ⟨r1, ?_, hpos, ?_, ?_⟩
      · simp only [deliverOrders, hproc]
        exact hsel
      · simp only [deliverOrders, hproc, succQtySum, isSuccessPub_singleton_succ]
        rw [if_pos trivial, hsum]
        ring
      · intro p hp
        simp only [deliverOrders, hproc, List.mem_cons] at hp
        rcases hp with rfl | hp
        · left
          exact isSuccessPub_singleton_succ _ _ _ _
        · exact hfail p hp
    · have hlt : r0.quantity_available < ev.quantity := not_le.mp hq
      have hupd := updateInventoryCond_of_lt tab ev.albumId ev.quantity r0 hnd hr hlt
      have hne : ¬ ((updateInventoryCond tab ev.albumId ev.quantity).2 = 1) := by
        rw [hupd]
        simp
      have hproc := processOrderCreated_failure tab ⟨[], some ev⟩ ev rfl hne
      obtain ⟨r1, hsel, hpos, hsum, hfail⟩ := ih tab r0 hnd hr h0 hall'
      refine ⟨r1, ?_, hpos, ?_, ?_⟩
      · simp only [deliverOrders, hproc]
        exact hsel
      · simp only [deliverOrders, hproc, succQtySum, isSuccessPub_singleton_fail]
        rw [if_neg (by simp), hsum]
        ring
      · intro p hp
        simp only [deliverOrders, hproc, List.mem_cons] at hp
        rcases hp with rfl | hp
        · right
          rfl
        · exact hfail p hp

/-! ## Claims -/

/-- C1 (counterexample): the coordinator performs no idempotency lookup, so
redelivering the same order-created event (ledger `album-1 ↦ 2`, order of one
unit delivered twice) publishes two outcome events and deducts stock twice
(final quantity 0), contradicting the claimed exactly-one-outcome-ever and
no-further-mutation behavior. -/
theorem C1_counterexample_redelivery_publishes_twice :
    (processOrderSeq seedTable [redeliveredOrderMsg, redeliveredOrderMsg]).2.length = 2 ∧
    (processOrderSeq seedTable [redeliveredOrderMsg, redeliveredOrderMsg]).1 =
      [⟨"album-1", 0, 0⟩] := by decide

/-- C1 (amended): `processOrderCreated` never consults the Processed-Order
Record (the table is created but unused by the processing path); every
fault-free delivery whose payload decodes publishes exactly one outcome
event, so n deliveries of the same order publish n outcome events rather
than one. -/
theorem C1_no_idempotency_one_outcome_per_delivery (tab : Table)
    (msgs : List (ConsumedMessage OrderMessage))
    (hall : ∀ m ∈ msgs, (ConsumedMessage.payload m).isSome = true) :
    (processOrderSeq tab msgs).2.length = msgs.length := by
  induction msgs generalizing tab with
  | nil => rfl
  | cons m ms ih =>
    obtain ⟨ev, hev⟩ := Option.isSome_iff_exists.mp (hall m (List.mem_cons_self _ _))
    have h1 := processOrderCreated_published_length tab m ev hev
    simp only [processOrderSeq, List.length_append, h1, List.length_cons]
    rw [ih _ (fun x hx => hall x (List.mem_cons_of_mem _ hx))]
    omega

/-- C1 (witness for the amended theorem): the double delivery of the sample
order decodes on both deliveries and yields two published outcome events. -/
theorem C1_no_idempotency_witness :
    (∀ m ∈ [redeliveredOrderMsg, redeliveredOrderMsg],
      (ConsumedMessage.payload m).isSome = true) ∧
    (processOrderSeq seedTable [redeliveredOrderMsg, redeliveredOrderMsg]).2.length =
      [redeliveredOrderMsg, redeliveredOrderMsg].length :=
  ⟨by decide,
    C1_no_idempotency_one_outcome_per_delivery seedTable
      [redeliveredOrderMsg, redeliveredOrderMsg] (by decide)⟩

/-- C2: the conditional decrement applies in full exactly when the stored
quantity is at least the requested quantity (one affected row, the row's
quantity drops by exactly the request, all other rows untouched) and
otherwise leaves the table entirely unchanged; and every sequence of
order-created events processed by the coordinator preserves non-negativity
of all stored quantities. -/
theorem C2_conditional_decrement_dichotomy (tab : Table) (a : String) (q : Int)
    (hnd : KeysNodup tab) :
    (selectRow tab a = none → updateInventoryCond tab a q = (tab, 0)) ∧
    (∀ r, selectRow tab a = some r → r.quantity_available < q →
      updateInventoryCond tab a q = (tab, 0)) ∧
    (∀ r, selectRow tab a = some r → q ≤ r.quantity_available →
      (updateInventoryCond tab a q).2 = 1 ∧
      selectRow (updateInventoryCond tab a q).1 a =
        some { r with quantity_available := r.quantity_available - q } ∧
      ∀ b, b ≠ a → selectRow (updateInventoryCond tab a q).1 b = selectRow tab b) ∧
    ∀ (msgs : List (ConsumedMessage OrderMessage)), NonNegTable tab →
      NonNegTable (processOrderSeq tab msgs).1 :=
  ⟨fun h => updateInventoryCond_of_selectRow_none tab a q h,
    fun r hr hlt => updateInventoryCond_of_lt tab a q r hnd hr hlt,
    fun r hr hle => updateInventoryCond_of_le tab a q r hnd hr hle,
    fun msgs h => processOrderSeq_nonneg msgs tab h⟩

/-- C2 (witness): the dichotomy evaluated on a one-row ledger with three
units and a request of two. -/
theorem C2_conditional_decrement_witness :
    KeysNodup conservationTable ∧
    ((selectRow conservationTable "album-1" = none →
        updateInventoryCond conservationTable "album-1" 2 = (conservationTable, 0)) ∧
      (∀ r, selectRow conservationTable "album-1" = some r → r.quantity_available < 2 →
        updateInventoryCond conservationTable "album-1" 2 = (conservationTable, 0)) ∧
      (∀ r, selectRow conservationTable "album-1" = some r → 2 ≤ r.quantity_available →
        (updateInventoryCond conservationTable "album-1" 2).2 = 1 ∧
        selectRow (updateInventoryCond conservationTable "album-1" 2).1 "album-1" =
          some { r with quantity_available := r.quantity_available - 2 } ∧
        ∀ b, b ≠ "album-1" →
          selectRow (updateInventoryCond conservationTable "album-1" 2).1 b =
            selectRow conservationTable b) ∧
      ∀ (msgs : List (ConsumedMessage OrderMessage)), NonNegTable conservationTable →
        NonNegTable (processOrderSeq conservationTable msgs).1) :=
  ⟨by unfold KeysNodup; decide,
    C2_conditional_decrement_dichotomy conservationTable "album-1" 2
      (by unfold KeysNodup; decide)⟩

/-- C3: for any sequence of decoded order-created events against one item
(each conditional decrement being a single atomic storage operation, any
concurrent execution linearizes into such a sequence), the total quantity of
the orders answered with a success outcome never exceeds the starting stock,
and every other order received exactly the `INSUFFICIENT_INVENTORY` failure
outcome. -/
theorem C3_conservation_under_concurrency (tab : Table) (a : String) (r0 : LedgerRow)
    (evs : List OrderMessage) (hnd : KeysNodup tab) (hr : selectRow tab a = some r0)
    (h0 : 0 ≤ r0.quantity_available) (hall : ∀ ev ∈ evs, ev.albumId = a) :
    succQtySum (deliverOrders tab evs).2 ≤ r0.quantity_available ∧
    ∀ p ∈ (deliverOrders tab evs).2, isSuccessPub p.2 = false →
      p.2 = [⟨orderFailedTopic, p.1.orderId,
        OutcomeEvent.failed p.1.orderId "INSUFFICIENT_INVENTORY", []⟩] := by
  obtain ⟨r1, _, hpos, hsum, hfail⟩ := deliverOrders_invariant evs tab a r0 hnd hr h0 hall
  constructor
  · rw [hsum]
    omega
  · intro p hp hF
    rcases hfail p hp with hT | hE
    · exact absurd (hF ▸ hT) Bool.false_ne_true
    · exact hE

/-- C3 (witness): two orders of two units against three units of stock; the
successes total at most three and the rejected order got the failure event. -/
theorem C3_conservation_witness :
    KeysNodup conservationTable ∧
    selectRow conservationTable "album-1" = some ⟨"album-1", 3, 0⟩ ∧
    ((0 : Int) ≤ 3) ∧
    (∀ ev ∈ conservationOrders, ev.albumId = "album-1") ∧
    (succQtySum (deliverOrders conservationTable conservationOrders).2 ≤ (3 : Int) ∧
      ∀ p ∈ (deliverOrders conservationTable conservationOrders).2,
        isSuccessPub p.2 = false →
          p.2 = [⟨orderFailedTopic, p.1.orderId,
            OutcomeEvent.failed p.1.orderId "INSUFFICIENT_INVENTORY", []⟩]) :=
  ⟨by unfold KeysNodup; decide, by decide, by decide, by decide,
    C3_conservation_under_concurrency conservationTable "album-1" ⟨"album-1", 3, 0⟩
      conservationOrders (by unfold KeysNodup; decide) (by decide) (by decide) (by decide)⟩

/-- C4: whenever the conditional decrement affects zero rows — the item has
no ledger row, or its stock is below the request — the coordinator leaves the
table unchanged (no row is created), publishes exactly one failure outcome
with the single reason code `INSUFFICIENT_INVENTORY` (the two causes are not
distinguished), and reports success so the message is marked consumed. -/
theorem C4_zero_rows_single_failure_reason (tab : Table)
    (msg : ConsumedMessage OrderMessage) (ev : OrderMessage) (hnd : KeysNodup tab)
    (hp : msg.payload = some ev)
    (hz : selectRow tab ev.albumId = none ∨
      ∃ r, selectRow tab ev.albumId = some r ∧ r.quantity_available < ev.quantity) :
    processOrderCreated none tab msg =
      ⟨tab, [⟨orderFailedTopic, ev.orderId,
        OutcomeEvent.failed ev.orderId "INSUFFICIENT_INVENTORY", []⟩], true⟩ := by
  have h0 : updateInventoryCond tab ev.albumId ev.quantity = (tab, 0) := by
    rcases hz with h | ⟨r, hrr, hlt⟩
    · exact updateInventoryCond_of_selectRow_none tab _ _ h
    · exact updateInventoryCond_of_lt tab _ _ r hnd hrr hlt
  exact processOrderCreated_failure tab msg ev hp (by simp [h0])

/-- C4 (witness): an order against an empty ledger (item `album-1` does not
exist) yields the failure outcome, no created row, and a consumed message. -/
theorem C4_zero_rows_witness :
    KeysNodup ([] : Table) ∧
    redeliveredOrderMsg.payload = some ⟨"order-7", "album-1", 1, "user-1", "t0"⟩ ∧
    (selectRow ([] : Table) "album-1" = none ∨
      ∃ r, selectRow ([] : Table) "album-1" = some r ∧ r.quantity_available < 1) ∧
    processOrderCreated none [] redeliveredOrderMsg =
      ⟨[], [⟨orderFailedTopic, "order-7",
        OutcomeEvent.failed "order-7" "INSUFFICIENT_INVENTORY", []⟩], true⟩ :=
  ⟨by unfold KeysNodup; decide, rfl, Or.inl rfl,
    C4_zero_rows_single_failure_reason [] redeliveredOrderMsg _
      (by unfold KeysNodup; decide) rfl (Or.inl rfl)⟩

/-- C5: the bootstrap listener inserts a missing row with the event's
declared initial quantity when present and non-negative (zero otherwise),
leaves an existing row untouched, and is idempotent: reprocessing the same
event after the first run leaves the table exactly as after the first run. -/
theorem C5_bootstrap_insert_if_absent_idempotent (tab : Table)
    (msg : ConsumedMessage AlbumCreatedEvent) (ev : AlbumCreatedEvent)
    (now now2 : Nat) (hp : msg.payload = some ev) :
    (selectRow tab ev.albumId = none →
      processAlbumCreatedEvent false tab msg now =
        ⟨tab ++ [⟨ev.albumId, quantityToInsert ev, now⟩], true⟩) ∧
    ((selectRow tab ev.albumId).isSome = true →
      processAlbumCreatedEvent false tab msg now = ⟨tab, true⟩) ∧
    processAlbumCreatedEvent false
        (processAlbumCreatedEvent false tab msg now).table msg now2 =
      ⟨(processAlbumCreatedEvent false tab msg now).table, true⟩ := by
  have hrun : ∀ (t : Table) (n : Nat), processAlbumCreatedEvent false t msg n =
      ⟨insertIfAbsent t ev.albumId (quantityToInsert ev) n, true⟩ := by
    intro t n
    unfold processAlbumCreatedEvent
    rw [hp]
    rfl
  have hins := selectRow_insertIfAbsent_isSome tab ev.albumId (quantityToInsert ev) now
  refine ⟨?_, ?_, ?_⟩
  · intro h
    rw [hrun]
    simp [insertIfAbsent, h]
  · intro h
    rw [hrun]
    simp [insertIfAbsent, h]
  · rw [hrun tab now]
    dsimp only
    rw [hrun _ now2, insertIfAbsent_of_present _ _ _ _ hins]

/-- C5 (witness): an album-created event declaring initial quantity −3 is
inserted with quantity 0 into an empty ledger, and reprocessing it changes
nothing. -/
theorem C5_bootstrap_witness :
    albumMsgNeg.payload = some ⟨"album-9", "Title", "Artist", some (-3)⟩ ∧
    ((selectRow ([] : Table) "album-9" = none →
        processAlbumCreatedEvent false [] albumMsgNeg 5 =
          ⟨[] ++ [⟨"album-9", 0, 5⟩], true⟩) ∧
      ((selectRow ([] : Table) "album-9").isSome = true →
        processAlbumCreatedEvent false [] albumMsgNeg 5 = ⟨[], true⟩) ∧
      processAlbumCreatedEvent false
          (processAlbumCreatedEvent false [] albumMsgNeg 5).table albumMsgNeg 6 =
        ⟨(processAlbumCreatedEvent false [] albumMsgNeg 5).table, true⟩) :=
  ⟨rfl, C5_bootstrap_insert_if_absent_idempotent [] albumMsgNeg
    ⟨"album-9", "Title", "Artist", some (-3)⟩ 5 6 rfl⟩

/-- C6 (counterexample): an undecodable album-created payload makes
`processAlbumCreatedEvent` return an error, so the consumer loop does NOT
commit the offset — contradicting the claim that both consumers mark
undecodable messages as consumed. -/
theorem C6_counterexample_album_parse_failure_not_consumed :
    (processAlbumCreatedEvent false [] ⟨[], none⟩ 0).committed ≠ true := by decide

/-- C6 (amended): an undecodable payload changes no state in either
consumer; the order-created consumer reports success (the offset is
committed, the message is skipped), while the album-created consumer
returns an error, so its message is redelivered rather than skipped. -/
theorem C6_undecodable_payload_policy (tab : Table) (hs hs2 : List (String × String))
    (fault : Option TxFault) (f : Bool) (now : Nat) :
    processOrderCreated fault tab ⟨hs, none⟩ = ⟨tab, [], true⟩ ∧
    processAlbumCreatedEvent f tab ⟨hs2, none⟩ now = ⟨tab, false⟩ :=
  ⟨rfl, rfl⟩

/-- C7 (counterexample): a consumed message carrying a trace-context header
map is answered with a produced message whose header list is empty — the
headers are not injected on produce, so the round-trip claim fails. -/
theorem C7_counterexample_headers_not_roundtripped :
    tracedOrderMsg.headers ≠ [] ∧
    (processOrderCreated none seedTable tracedOrderMsg).published.map
      (fun p => p.headers) = [[]] := by decide

/-- C7 (amended): every message the coordinator produces carries an empty
header list — `sendOrderEvent` sets only key and value, so the trace context
extracted on consume is never injected on produce. -/
theorem C7_produced_messages_carry_no_headers (fault : Option TxFault) (tab : Table)
    (msg : ConsumedMessage OrderMessage) (p : ProducedMessage)
    (hp : p ∈ (processOrderCreated fault tab msg).published) :
    p.headers = [] :=
  processOrderCreated_published_headers fault tab msg p hp

/-- C7 (witness for the amended theorem): the success outcome produced for
the traced sample message is in the published list and has no headers. -/
theorem C7_no_headers_witness :
    (⟨orderSucceededTopic, "order-9", OutcomeEvent.succeeded "order-9", []⟩ :
        ProducedMessage) ∈
      (processOrderCreated none seedTable tracedOrderMsg).published ∧
    (⟨orderSucceededTopic, "order-9", OutcomeEvent.succeeded "order-9", []⟩ :
        ProducedMessage).headers = [] :=
  ⟨by decide,
    C7_produced_messages_carry_no_headers none seedTable tracedOrderMsg _ (by decide)⟩

/-- C8: every transient storage failure — `BeginTx`, the `UPDATE`, reading
the affected-row count, or (when the decrement applied) the commit — leaves
the table unchanged, publishes nothing, and reports an error so the message
is not marked consumed and the broker redelivers it; fault-free processing
always reports success, so this is the only retried class of failure. -/
theorem C8_transient_failure_retried_state_unchanged (tab : Table)
    (msg : ConsumedMessage OrderMessage) (ev : OrderMessage) (fault : TxFault)
    (hp : msg.payload = some ev)
    (hf : fault = TxFault.beginFail ∨ fault = TxFault.updateFail ∨
      fault = TxFault.rowsFail ∨
      (fault = TxFault.commitFail ∧
        (updateInventoryCond tab ev.albumId ev.quantity).2 = 1)) :
    processOrderCreated (some fault) tab msg = ⟨tab, [], false⟩ ∧
    ∀ (tab2 : Table) (msg2 : ConsumedMessage OrderMessage),
      (processOrderCreated none tab2 msg2).committed = true := by
  refine ⟨?_, fun tab2 msg2 => processOrderCreated_none_committed tab2 msg2⟩
  unfold processOrderCreated
  rw [hp]
  rcases hf with rfl | rfl | rfl | ⟨rfl, h1⟩
  · simp
  · simp
  · simp
  · simp [h1]

/-- C8 (witness): a failing `BeginTx` on the sample delivery leaves the
ledger untouched, publishes nothing and does not commit. -/
theorem C8_transient_failure_witness :
    redeliveredOrderMsg.payload = some ⟨"order-7", "album-1", 1, "user-1", "t0"⟩ ∧
    (TxFault.beginFail = TxFault.beginFail ∨ TxFault.beginFail = TxFault.updateFail ∨
      TxFault.beginFail = TxFault.rowsFail ∨
      (TxFault.beginFail = TxFault.commitFail ∧
        (updateInventoryCond seedTable "album-1" 1).2 = 1)) ∧
    (processOrderCreated (some TxFault.beginFail) seedTable redeliveredOrderMsg =
        ⟨seedTable, [], false⟩ ∧
      ∀ (tab2 : Table) (msg2 : ConsumedMessage OrderMessage),
        (processOrderCreated none tab2 msg2).committed = true) :=
  ⟨rfl, Or.inl rfl,
    C8_transient_failure_retried_state_unchanged seedTable redeliveredOrderMsg _
      TxFault.beginFail rfl (Or.inl rfl)⟩

/-- C9 (code evaluation at the failing input): `reserveInventory` issues its
existence/stock check as a `SELECT` separate from an unconditional `UPDATE`.
With one unit in stock, two interleaved calls for one unit each both read
quantity 1 and both pass the `currentQuantity < quantity` check (¬(1 < 1)),
then both unconditional updates apply, leaving quantity −1: the function is a
read-then-write pair, not the atomic conditional-update primitive, and it
drives the quantity below zero under concurrency. -/
theorem C9_interleaved_reserveInventory_goes_negative :
    lookupQty raceStartTable "album-1" = some 1 ∧
    ¬ ((1 : Int) < 1) ∧
    updateInventoryUncond (updateInventoryUncond raceStartTable "album-1" 1 1)
        "album-1" 1 2 = [⟨"album-1", -1, 2⟩] ∧
    ((-1 : Int) < 0) := by decide

/-- C10: reading the inventory of an album with no ledger row answers
HTTP 200 with a synthesized body carrying that album identifier, quantity
zero and the current timestamp, and leaves the table unchanged (no row is
created). -/
theorem C10_missing_row_returns_200_zero (tab : Table) (a : String) (now : Nat)
    (h : selectRow tab a = none) :
    getInventory tab a now = (tab, ⟨200, ⟨a, 0, now⟩⟩) := by
  unfold getInventory
  rw [h]

/-- C10 (witness): an unknown album on an empty ledger. -/
theorem C10_missing_row_witness :
    selectRow ([] : Table) "album-404" = none ∧
    getInventory [] "album-404" 42 = ([], ⟨200, ⟨"album-404", 0, 42⟩⟩) :=
  ⟨rfl, C10_missing_row_returns_200_zero [] "album-404" 42 rfl⟩

end AlbumStore
